import Mathlib

/-!
Verification of the validation-and-persistence pipeline of the portfolio
backend (users / contacts / projects).  Strings are modelled as lists of
characters; Python `str.strip`, the character classes of the validation
regexes, and the repository stores are embedded directly from the source.
-/

namespace Portfolio

/-- Whitespace stripped by Python `str.strip()` (the ASCII whitespace set). -/
def pyIsSpace (c : Char) : Bool :=
  c = ' ' || c = '\t' || c = '\n' || c = '\r' || c = '\x0b' || c = '\x0c'

/-- Left part of Python `str.strip()`. -/
def lstripChars (s : List Char) : List Char := s.dropWhile pyIsSpace

/-- Right part of Python `str.strip()`. -/
def rstripChars (s : List Char) : List Char := (s.reverse.dropWhile pyIsSpace).reverse

/-- Python `str.strip()`: drop leading and trailing whitespace. -/
def pyStrip (s : List Char) : List Char := rstripChars (lstripChars s)

/-- The regex class `[A-Z]`. -/
def isUpperAZ (c : Char) : Bool := 'A' ≤ c && c ≤ 'Z'

/-- The regex class `[a-z]`. -/
def isLowerAZ (c : Char) : Bool := 'a' ≤ c && c ≤ 'z'

/-- The regex class `[0-9]`, the ASCII reading of the regex class `\d`. -/
def isDigit09 (c : Char) : Bool := '0' ≤ c && c ≤ '9'

/-- The regex class `[a-zA-Z]`. -/
def isAlphaAZ (c : Char) : Bool := isUpperAZ c || isLowerAZ c

/-- Characters allowed in the local part of the email regex. -/
def emailLocalChar (c : Char) : Bool :=
  isAlphaAZ c || isDigit09 c || c = '.' || c = '_' || c = '%' || c = '+' || c = '-'

/-- Characters allowed in the domain part of the email regex. -/
def emailDomainChar (c : Char) : Bool :=
  isAlphaAZ c || isDigit09 c || c = '.' || c = '-'

/-- Membership in the language of the domain tail of the email regex:
some split of the input as a nonempty run of domain characters, a literal
dot, and a final run of at least two letters. -/
def emailDomainOk (d : List Char) : Bool :=
  (List.range d.length).any fun i =>
    match d.drop i with
    | '.' :: t =>
        (!(d.take i).isEmpty) && (d.take i).all emailDomainChar &&
        decide (2 ≤ t.length) && t.all isAlphaAZ
    | _ => false

/-- `UserService._is_valid_email` / `ContactService._is_valid_email`: the
language of the anchored regex for a conventional address, one nonempty
run of local characters, an at sign, and a matching domain. -/
def is_valid_email (e : List Char) : Bool :=
  (List.range e.length).any fun i =>
    match e.drop i with
    | '@' :: d =>
        (!(e.take i).isEmpty) && (e.take i).all emailLocalChar && emailDomainOk d
    | _ => false

/-- The two kinds of failure crossing the service boundary: `ValueError`
raised by validation and uniqueness pre-checks, and the integrity error
raised by the persistence store on a unique-constraint violation. -/
inductive PyErr
  | valueError (msg : String)
  | integrityError (msg : String)
deriving DecidableEq

instance instDecEqExcept {ε α : Type} [DecidableEq ε] [DecidableEq α] :
    DecidableEq (Except ε α)
  | .ok a, .ok b =>
      if h : a = b then .isTrue (by rw [h]) else .isFalse (by simp [h])
  | .ok _, .error _ => .isFalse (by simp)
  | .error _, .ok _ => .isFalse (by simp)
  | .error e, .error f =>
      if h : e = f then .isTrue (by rw [h]) else .isFalse (by simp [h])

/-- `UserService._validate_password`: length window 8..128 and the three
character-class searches, checked in source order with the source's
messages. -/
def UserService.validate_password (p : List Char) : Except PyErr Unit :=
  if p = [] ∨ p.length < 8 then
    .error (.valueError "Password must be at least 8 characters")
  else if 128 < p.length then
    .error (.valueError "Password must not exceed 128 characters")
  else if p.any isUpperAZ = false then
    .error (.valueError "Password must contain at least one uppercase letter")
  else if p.any isLowerAZ = false then
    .error (.valueError "Password must contain at least one lowercase letter")
  else if p.any isDigit09 = false then
    .error (.valueError "Password must contain at least one digit")
  else
    .ok ()

/-- Sequencing of a validator call that may raise: on failure the error
propagates unchanged, on success execution continues. -/
def pyTry {α : Type} (x : Except PyErr Unit) (k : Except PyErr α) : Except PyErr α :=
  match x with
  | .error e => .error e
  | .ok () => k

theorem pyTry_ok {α : Type} (k : Except PyErr α) : pyTry (.ok ()) k = k := rfl

theorem pyTry_error {α : Type} (e : PyErr) (k : Except PyErr α) :
    pyTry (.error e) k = .error e := rfl

/-- `UserService._validate_user_input`: the username minimum is checked on
the stripped string, the username maximum on the raw string, then email,
password and the optional name fields, in source order. -/
def UserService.validate_user_input
    (username email password first_name last_name : List Char) : Except PyErr Unit :=
  if username = [] ∨ (pyStrip username).length < 3 then
    .error (.valueError "Username must be at least 3 characters")
  else if 100 < username.length then
    .error (.valueError "Username must not exceed 100 characters")
  else if is_valid_email email = false then
    .error (.valueError "Invalid email address")
  else
    pyTry (UserService.validate_password password) <|
      if first_name ≠ [] ∧ 100 < first_name.length then
        .error (.valueError "First name must not exceed 100 characters")
      else if last_name ≠ [] ∧ 100 < last_name.length then
        .error (.valueError "Last name must not exceed 100 characters")
      else
        .ok ()

theorem dropWhile_dropWhile {α : Type} (p : α → Bool) (s : List α) :
    (s.dropWhile p).dropWhile p = s.dropWhile p := by
  induction s with
  | nil => rfl
  | cons a t ih =>
    by_cases h : p a
    · simp [List.dropWhile_cons, h, ih]
    · simp [List.dropWhile_cons, h]

theorem mem_of_mem_dropWhile {α : Type} (p : α → Bool) {a : α} :
    ∀ {s : List α}, a ∈ s.dropWhile p → a ∈ s := by
  intro s
  induction s with
  | nil => simp [List.dropWhile]
  | cons b t ih =>
    intro h
    by_cases hb : p b
    · simp only [List.dropWhile_cons, hb, if_pos] at h
      exact List.mem_cons_of_mem _ (ih h)
    · simpa [List.dropWhile_cons, hb] using h

theorem dropWhile_head_false {α : Type} (p : α → Bool) (a : α) (t : List α)
    (h : (a :: t).dropWhile p = a :: t) : p a = false := by
  by_cases hp : p a
  · exfalso
    rw [List.dropWhile_cons, if_pos hp] at h
    have hle := (List.dropWhile_sublist (l := t) p).length_le
    rw [h] at hle
    simp only [List.length_cons] at hle
    omega
  · simpa using hp

theorem rstrip_decomposition (s : List Char) :
    s = rstripChars s ++ (s.reverse.takeWhile pyIsSpace).reverse := by
  unfold rstripChars
  conv_lhs => rw [← List.reverse_reverse s,
    ← List.takeWhile_append_dropWhile (p := pyIsSpace) (l := s.reverse)]
  rw [List.reverse_append]

theorem rstrip_rstrip (s : List Char) : rstripChars (rstripChars s) = rstripChars s := by
  unfold rstripChars
  rw [List.reverse_reverse, dropWhile_dropWhile]

theorem lstrip_rstrip_of_lstripped (y : List Char) (hy : lstripChars y = y) :
    lstripChars (rstripChars y) = rstripChars y := by
  rcases hr : rstripChars y with _ | ⟨a, t⟩
  · rfl
  · have hdecomp := rstrip_decomposition y
    rw [hr] at hdecomp
    have ha : pyIsSpace a = false := by
      have : ((a :: (t ++ (y.reverse.takeWhile pyIsSpace).reverse)).dropWhile pyIsSpace)
          = a :: (t ++ (y.reverse.takeWhile pyIsSpace).reverse) := by
        have := hy
        rw [hdecomp] at this
        simpa [lstripChars] using this
      exact dropWhile_head_false _ _ _ this
    simp [lstripChars, List.dropWhile_cons, ha]

theorem pyStrip_idem (s : List Char) : pyStrip (pyStrip s) = pyStrip s := by
  unfold pyStrip
  rw [lstrip_rstrip_of_lstripped (lstripChars s) (dropWhile_dropWhile pyIsSpace s),
    rstrip_rstrip]

theorem mem_of_mem_pyStrip {a : Char} {s : List Char} (h : a ∈ pyStrip s) : a ∈ s := by
  unfold pyStrip rstripChars lstripChars at h
  rw [List.mem_reverse] at h
  have h2 := mem_of_mem_dropWhile pyIsSpace h
  rw [List.mem_reverse] at h2
  exact mem_of_mem_dropWhile pyIsSpace h2

/-- C7: password validation accepts exactly the 8-to-128-character passwords
holding at least one uppercase letter, one lowercase letter and one digit;
the five concrete examples of the spec behave exactly as stated. -/
theorem C7_password_validation :
    (∀ p : List Char,
        UserService.validate_password p = .ok () ↔
          (8 ≤ p.length ∧ p.length ≤ 128 ∧
            p.any isUpperAZ = true ∧ p.any isLowerAZ = true ∧ p.any isDigit09 = true))
    ∧ UserService.validate_password "password1".toList =
        .error (.valueError "Password must contain at least one uppercase letter")
    ∧ UserService.validate_password "PASSWORD1".toList =
        .error (.valueError "Password must contain at least one lowercase letter")
    ∧ UserService.validate_password "Password".toList =
        .error (.valueError "Password must contain at least one digit")
    ∧ UserService.validate_password "Pass1".toList =
        .error (.valueError "Password must be at least 8 characters")
    ∧ UserService.validate_password "Password1".toList = .ok () := by
  refine ⟨?_, by decide, by decide, by decide, by decide, by decide⟩
  intro p
  unfold UserService.validate_password
  split_ifs with h1 h2 h3 h4 h5
  · constructor
    · intro h; cases h
    · rintro ⟨hlen, -⟩
      rcases h1 with h1 | h1
      · subst h1; simp at hlen
      · omega
  · constructor
    · intro h; cases h
    · rintro ⟨-, hlen, -⟩; omega
  · constructor
    · intro h; cases h
    · rintro ⟨-, -, hU, -⟩; rw [h3] at hU; cases hU
  · constructor
    · intro h; cases h
    · rintro ⟨-, -, -, hL, -⟩; rw [h4] at hL; cases hL
  · constructor
    · intro h; cases h
    · rintro ⟨-, -, -, -, hD⟩; rw [h5] at hD; cases hD
  · push_neg at h1
    constructor
    · intro _
      refine ⟨by omega, by omega, ?_, ?_, ?_⟩
      · simpa using h3
      · simpa using h4
      · simpa using h5
    · intro _; rfl

/-- C3 fails on the code: a username of three letters followed by 98 spaces
has trimmed length 3, well within the documented 100-character bound, yet the
validator rejects it as too long because the maximum-length check is applied
to the raw, untrimmed string. -/
theorem C3_counterexample :
    (pyStrip ("abc".toList ++ List.replicate 98 ' ')).length = 3 ∧
    ("abc".toList ++ List.replicate 98 ' ').length = 101 ∧
    UserService.validate_user_input ("abc".toList ++ List.replicate 98 ' ')
        "a@b.co".toList "Password1".toList [] [] =
      .error (.valueError "Username must not exceed 100 characters") := by decide

/-- C3 amended: with the remaining fields valid, username validation accepts
exactly when the trimmed length is at least 3 and the RAW (untrimmed) length is
at most 100; the minimum is checked after trimming but the maximum is not. -/
theorem C3_username_validation_amended
    (u e p f l : List Char)
    (he : is_valid_email e = true)
    (hp : UserService.validate_password p = .ok ())
    (hf : f.length ≤ 100) (hl : l.length ≤ 100) :
    UserService.validate_user_input u e p f l = .ok () ↔
      (3 ≤ (pyStrip u).length ∧ u.length ≤ 100) := by
  unfold UserService.validate_user_input
  rw [he, hp, pyTry_ok]
  have hfc : ¬(f ≠ [] ∧ 100 < f.length) := by rintro ⟨-, h⟩; omega
  have hlc : ¬(l ≠ [] ∧ 100 < l.length) := by rintro ⟨-, h⟩; omega
  rw [if_neg hfc, if_neg hlc]
  have hemail : ¬(true = false) := by simp
  rw [if_neg hemail]
  split_ifs with h1 h2
  · constructor
    · intro h; cases h
    · rintro ⟨h3, -⟩
      rcases h1 with h1 | h1
      · subst h1; simp [pyStrip, lstripChars, rstripChars] at h3
      · omega
  · constructor
    · intro h; cases h
    · rintro ⟨-, h3⟩; omega
  · push_neg at h1
    constructor
    · intro _; exact ⟨by omega, by omega⟩
    · intro _; rfl

/-- Concrete instance of the amended C3 theorem: a five-letter username with
valid companion fields is accepted, and its trimmed length is within bounds. -/
theorem C3_witness :
    UserService.validate_user_input "alice".toList "a@b.co".toList
        "Password1".toList [] [] = .ok () ↔
      (3 ≤ (pyStrip "alice".toList).length ∧ ("alice".toList).length ≤ 100) :=
  C3_username_validation_amended _ _ _ _ _ (by decide) (by decide)
    (by decide) (by decide)

/-- An account row: identity, credential (stored in hashed form; the
`pwStored` field stands for the persisted salted hash), flags and creation
timestamp, as in the `User` model. -/
structure UserRec where
  id : Nat
  username : List Char
  email : List Char
  first_name : List Char
  last_name : List Char
  pwStored : List Char
  is_active : Bool
  is_staff : Bool
  is_superuser : Bool
  date_joined : Nat
deriving DecidableEq

/-- The user table of the persistence store. -/
structure UserDb where
  users : List UserRec
deriving DecidableEq

/-- Store well-formedness: `id` is the primary key, so ids are unique. -/
abbrev UserDb.Wf (db : UserDb) : Prop := (db.users.map (fun r => r.id)).Nodup

/-- `UserRepository.get_by_id`: `User.objects.get(id=...)`, absent row is a
normal `None` result. -/
def UserRepository.get_by_id (db : UserDb) (uid : Nat) : Option UserRec :=
  db.users.find? (fun r => decide (r.id = uid))

/-- `UserRepository.get_by_username`. -/
def UserRepository.get_by_username (db : UserDb) (u : List Char) : Option UserRec :=
  db.users.find? (fun r => decide (r.username = u))

/-- `UserRepository.get_by_email`. -/
def UserRepository.get_by_email (db : UserDb) (e : List Char) : Option UserRec :=
  db.users.find? (fun r => decide (r.email = e))

/-- `UserRepository.check_password`: refetch the row by id and compare the
supplied password against the stored hash; `hm stored pw` stands for the
salted-hash comparison performed by the model layer.  A missing user is
reported as a failed check. -/
def UserRepository.check_password (hm : List Char → List Char → Bool)
    (db : UserDb) (uid : Nat) (pw : List Char) : Bool :=
  match UserRepository.get_by_id db uid with
  | some r => hm r.pwStored pw
  | none => false

/-- `UserService.authenticate`: look up by username, fail on no match, fail on
an inactive account, fail on a wrong password, otherwise return the account. -/
def UserService.authenticate (hm : List Char → List Char → Bool)
    (db : UserDb) (username pw : List Char) : Option UserRec :=
  match UserRepository.get_by_username db username with
  | none => none
  | some user =>
    if user.is_active = false then none
    else if UserRepository.check_password hm db user.id pw = false then none
    else some user

theorem find?_key_unique {α κ : Type} [DecidableEq κ] (key : α → κ) :
    ∀ (l : List α), (l.map key).Nodup → ∀ r ∈ l,
      l.find? (fun x => decide (key x = key r)) = some r := by
  intro l
  induction l with
  | nil => simp
  | cons a t ih =>
    intro hnd r hr
    have hnd' := hnd
    rw [List.map_cons, List.nodup_cons] at hnd'
    rcases List.mem_cons.mp hr with h | h
    · subst h; simp [List.find?]
    · have hkey : ¬(key a = key r) := by
        intro hcontra
        exact hnd'.1 (hcontra ▸ List.mem_map_of_mem key h)
      rw [List.find?_cons]
      have hda : decide (key a = key r) = false := by simpa using hkey
      rw [hda]
      exact ih hnd'.2 r h

theorem get_by_id_of_mem (db : UserDb) (hwf : db.Wf) {r : UserRec}
    (hr : r ∈ db.users) : UserRepository.get_by_id db r.id = some r :=
  find?_key_unique (fun x : UserRec => x.id) db.users hwf r hr

/-- C1: over a well-formed store, authenticate returns the account exactly
when the username resolves to it, it is active, and the supplied password
matches the stored hash; failing any one of the three conditions yields the
absent result. -/
theorem C1_authenticate_characterization
    (hm : List Char → List Char → Bool) (db : UserDb) (hwf : db.Wf)
    (u pw : List Char) (user : UserRec) :
    UserService.authenticate hm db u pw = some user ↔
      (UserRepository.get_by_username db u = some user ∧
        user.is_active = true ∧ hm user.pwStored pw = true) := by
  unfold UserService.authenticate
  split
  next heq => rw [heq]; simp
  next r heq =>
    rw [heq]
    have hrmem : r ∈ db.users := List.mem_of_find?_eq_some heq
    have hid : UserRepository.get_by_id db r.id = some r := get_by_id_of_mem db hwf hrmem
    unfold UserRepository.check_password
    rw [hid]
    split_ifs with h1 h2
    · constructor
      · intro h; cases h
      · rintro ⟨hru, hact, -⟩
        injection hru with hru
        subst hru
        rw [h1] at hact
        cases hact
    · constructor
      · intro h; cases h
      · rintro ⟨hru, -, hpw⟩
        injection hru with hru
        subst hru
        have h2' : hm r.pwStored pw = false := h2
        rw [h2'] at hpw
        cases hpw
    · constructor
      · intro h
        injection h with h
        subst h
        have h2' : ¬((hm r.pwStored pw) = false) := h2
        exact ⟨rfl, by simpa using h1, by simpa using h2'⟩
      · rintro ⟨hru, -, -⟩
        exact hru

/-- An active account used in concrete instances. -/
def uAlice : UserRec :=
  { id := 1, username := "alice".toList, email := "alice@ex.com".toList,
    first_name := [], last_name := [], pwStored := "Password1".toList,
    is_active := true, is_staff := false, is_superuser := false,
    date_joined := 100 }

/-- A deactivated account used in concrete instances. -/
def uBob : UserRec :=
  { id := 2, username := "bob".toList, email := "bob@ex.com".toList,
    first_name := [], last_name := [], pwStored := "Password2".toList,
    is_active := false, is_staff := false, is_superuser := false,
    date_joined := 200 }

/-- A two-account store. -/
def dbTwo : UserDb := { users := [uAlice, uBob] }

/-- A concrete hash-match relation: plain comparison of the stored credential
with the supplied one. -/
def hmEq (stored pw : List Char) : Bool := decide (stored = pw)

/-- Concrete instance of the C1 characterization on a two-account store. -/
theorem C1_witness :
    UserService.authenticate hmEq dbTwo "alice".toList "Password1".toList = some uAlice ↔
      (UserRepository.get_by_username dbTwo "alice".toList = some uAlice ∧
        uAlice.is_active = true ∧ hmEq uAlice.pwStored "Password1".toList = true) :=
  C1_authenticate_characterization hmEq dbTwo (by decide) "alice".toList
    "Password1".toList uAlice

/-- Modelled from the spec: section 6 makes the persistence store the final
authority on uniqueness of username and email, signalling a violation of the
unique constraint as an integrity error instead of storing the row; the store
itself is an external collaborator not present under the covered source. -/
def dbInsertUser (db : UserDb) (r : UserRec) : Except PyErr UserDb :=
  if db.users.any (fun x => decide (x.username = r.username) ||
      decide (x.email = r.email)) then
    .error (.integrityError "UNIQUE constraint failed")
  else
    .ok { users := db.users ++ [r] }

/-- `UserRepository.create`: the insert is wrapped in a try/except that logs
the failure and re-raises it, so the failure reaches the service unchanged. -/
def UserRepository.create (db : UserDb) (r : UserRec) : Except PyErr UserDb :=
  dbInsertUser db r

/-- `UserService.create_user`: validate, pre-check username and email
uniqueness, then call the repository create.  The two store snapshots model
the state seen by the pre-check and the state hit by the insert; they differ
exactly when a concurrent insert lands in between (the check-then-act race of
the spec).  `hf` stands for the password hasher applied at creation;
`newId` and `dateNow` stand for the generated id and clock.  The interpolated
parts of the duplicate-username and duplicate-email messages are omitted. -/
def UserService.create_user (hf : List Char → List Char)
    (dbPre dbCreate : UserDb) (newId dateNow : Nat)
    (username email password first_name last_name : List Char)
    (is_active is_staff is_superuser : Bool) : Except PyErr (UserDb × UserRec) :=
  pyTry (UserService.validate_user_input username email password first_name last_name) <|
    if (UserRepository.get_by_username dbPre username).isSome then
      .error (.valueError "Username already exists")
    else if (UserRepository.get_by_email dbPre email).isSome then
      .error (.valueError "Email already exists")
    else
      match UserRepository.create dbCreate
          { id := newId, username := username, email := email,
            first_name := first_name, last_name := last_name,
            pwStored := hf password, is_active := is_active,
            is_staff := is_staff, is_superuser := is_superuser,
            date_joined := dateNow } with
      | .error e => .error e
      | .ok db2 =>
          .ok (db2,
            { id := newId, username := username, email := email,
              first_name := first_name, last_name := last_name,
              pwStored := hf password, is_active := is_active,
              is_staff := is_staff, is_superuser := is_superuser,
              date_joined := dateNow })

/-- A one-account store holding only `uAlice`. -/
def dbAliceOnly : UserDb := { users := [uAlice] }

/-- C2 fails on the code: when the pre-check sees a store without the
username and email but the insert hits a store already holding them (the
raced case), `create_user` surfaces the storage integrity error itself, not a
conflict-style `ValueError`; the service catches nothing. -/
theorem C2_counterexample :
    UserRepository.get_by_username { users := [] } "alice".toList = none ∧
    UserRepository.get_by_email { users := [] } "alice@ex.com".toList = none ∧
    UserService.create_user (fun pw => pw) { users := [] } dbAliceOnly 7 5
        "alice".toList "alice@ex.com".toList "Password1".toList [] []
        true false false
      = .error (.integrityError "UNIQUE constraint failed") := by decide

/-- C2 amended: the service detects conflicts only pre-emptively; when the
pre-checks pass and the storage create then fails with a uniqueness-constraint
integrity error, that error propagates out of `create_user` unchanged instead
of being caught and reclassified as a conflict. -/
theorem C2_integrity_error_propagates
    (hf : List Char → List Char) (dbPre dbCreate : UserDb) (newId dateNow : Nat)
    (username email password first_name last_name : List Char)
    (is_active is_staff is_superuser : Bool) (m : String)
    (hval : UserService.validate_user_input username email password
        first_name last_name = .ok ())
    (hu : UserRepository.get_by_username dbPre username = none)
    (he : UserRepository.get_by_email dbPre email = none)
    (hins : UserRepository.create dbCreate
        { id := newId, username := username, email := email,
          first_name := first_name, last_name := last_name,
          pwStored := hf password, is_active := is_active,
          is_staff := is_staff, is_superuser := is_superuser,
          date_joined := dateNow } = .error (.integrityError m)) :
    UserService.create_user hf dbPre dbCreate newId dateNow
        username email password first_name last_name is_active is_staff is_superuser
      = .error (.integrityError m) := by
  unfold UserService.create_user
  rw [hval, pyTry_ok, hu, he, hins]
  simp

/-- Concrete instance of the amended C2 theorem on the raced stores. -/
theorem C2_witness :
    UserService.create_user (fun pw => pw) { users := [] } dbAliceOnly 7 5
        "alice".toList "alice@ex.com".toList "Password1".toList [] []
        true false false
      = .error (.integrityError "UNIQUE constraint failed") :=
  C2_integrity_error_propagates (fun pw => pw) { users := [] } dbAliceOnly 7 5
    "alice".toList "alice@ex.com".toList "Password1".toList [] []
    true false false "UNIQUE constraint failed"
    (by decide) (by decide) (by decide) (by decide)

/-- Characters kept by the contact sanitizer: code point at least 32, or one
of newline, carriage return, tab. -/
def keepChar (c : Char) : Bool := 32 ≤ c.toNat || c = '\n' || c = '\r' || c = '\t'

/-- `ContactService._sanitize_text`: empty text maps to empty, otherwise the
text is stripped and its control characters below 32 (except newline,
carriage return and tab) are removed. -/
def ContactService.sanitize_text (t : List Char) : List Char :=
  if t = [] then []
  else (pyStrip t).filter keepChar

/-- Python `str.lower()` restricted to the ASCII letters. -/
def pyToLower (c : Char) : Char :=
  if 'A' ≤ c ∧ c ≤ 'Z' then Char.ofNat (c.toNat + 32) else c

/-- `ContactService._sanitize_email`: trim, then lowercase. -/
def ContactService.sanitize_email (e : List Char) : List Char :=
  (pyStrip e).map pyToLower

/-- Characters kept by the phone sanitizer. -/
def phoneChar (c : Char) : Bool :=
  isDigit09 c || c = '+' || c = '-' || c = '(' || c = ')' || c = ' '

/-- `ContactService._sanitize_phone`: drop everything but digits, plus,
minus, parentheses and spaces, then trim. -/
def ContactService.sanitize_phone (p : List Char) : List Char :=
  pyStrip (p.filter phoneChar)

/-- `ContactService._validate_contact_input`: the minimum lengths are checked
on stripped values, the maxima on raw values, in source order. -/
def ContactService.validate_contact_input
    (full_name email subject message : List Char) : Except PyErr Unit :=
  if full_name = [] ∨ (pyStrip full_name).length < 2 then
    .error (.valueError "Full name must be at least 2 characters")
  else if 100 < full_name.length then
    .error (.valueError "Full name must not exceed 100 characters")
  else if is_valid_email email = false then
    .error (.valueError "Invalid email address")
  else if subject = [] ∨ (pyStrip subject).length < 5 then
    .error (.valueError "Subject must be at least 5 characters")
  else if 100 < subject.length then
    .error (.valueError "Subject must not exceed 100 characters")
  else if message = [] ∨ (pyStrip message).length < 10 then
    .error (.valueError "Message must be at least 10 characters")
  else if 5000 < message.length then
    .error (.valueError "Message must not exceed 5000 characters")
  else
    .ok ()

/-- The field values handed to `ContactRepository.create` by the service. -/
structure ContactFields where
  full_name : List Char
  email : List Char
  subject : List Char
  message : List Char
  phone_number : Option (List Char)
  preferred_contact_method : Option (List Char)
  ip_address : Option (List Char)
  user_agent : Option (List Char)
  organization : Option (List Char)
  status : String
deriving DecidableEq

/-- `ContactService.create_contact`: validate the RAW input, then sanitize,
then hand the sanitized values to the repository create; the returned record
is exactly what the repository receives.  Phone and organization are
sanitized only when truthy (present and nonempty). -/
def ContactService.create_contact
    (full_name email subject message : List Char)
    (phone_number preferred_contact_method ip_address user_agent organization :
      Option (List Char)) : Except PyErr ContactFields :=
  pyTry (ContactService.validate_contact_input full_name email subject message) <|
    .ok {
      full_name := ContactService.sanitize_text full_name,
      email := ContactService.sanitize_email email,
      subject := ContactService.sanitize_text subject,
      message := ContactService.sanitize_text message,
      phone_number :=
        match phone_number with
        | some p => if p ≠ [] then some (ContactService.sanitize_phone p) else some p
        | none => none,
      preferred_contact_method := preferred_contact_method,
      ip_address := ip_address,
      user_agent := user_agent,
      organization :=
        match organization with
        | some o => if o ≠ [] then some (ContactService.sanitize_text o) else some o
        | none => none,
      status := "new" }

/-- C4 fails on the code: a message of eight control characters followed by
two letters passes validation (its trimmed length is 10, control characters
are not whitespace), but sanitization then removes the control characters, so
the repository receives a message whose trimmed length is only 2 - below the
documented minimum of 10. -/
theorem C4_counterexample :
    (ContactService.create_contact "John".toList "a@b.co".toList "Hello".toList
        (List.replicate 8 '\x01' ++ "ab".toList)
        none none none none none).toOption.map
      (fun r => (pyStrip r.message).length) = some 2 := by decide

theorem validate_contact_ok_bounds
    (full_name email subject message : List Char)
    (h : ContactService.validate_contact_input full_name email subject message
      = .ok ()) :
    2 ≤ (pyStrip full_name).length ∧ 5 ≤ (pyStrip subject).length ∧
      10 ≤ (pyStrip message).length := by
  unfold ContactService.validate_contact_input at h
  split_ifs at h with h1 h2 h3 h4 h5 h6 h7
  push_neg at h1 h4 h6
  exact ⟨h1.2, h4.2, h6.2⟩

theorem sanitize_text_of_clean (t : List Char) (hc : ∀ c ∈ t, keepChar c = true) :
    ContactService.sanitize_text t = pyStrip t := by
  unfold ContactService.sanitize_text
  split_ifs with h
  · subst h; rfl
  · rw [List.filter_eq_self.mpr]
    intro a ha
    exact hc a (mem_of_mem_pyStrip ha)

/-- C4 amended: the bounds hold for the values the repository receives as
long as the free-text inputs contain none of the control characters the
sanitizer strips; in general validation runs on the raw input and
sanitization afterwards, so control characters can push the stored message,
subject or name below the documented minima. -/
theorem C4_sanitized_bounds_amended
    (full_name email subject message : List Char)
    (pn pcm ip ua org : Option (List Char)) (r : ContactFields)
    (hfn : ∀ c ∈ full_name, keepChar c = true)
    (hsu : ∀ c ∈ subject, keepChar c = true)
    (hme : ∀ c ∈ message, keepChar c = true)
    (hok : ContactService.create_contact full_name email subject message
        pn pcm ip ua org = .ok r) :
    2 ≤ (pyStrip r.full_name).length ∧ 5 ≤ (pyStrip r.subject).length ∧
      10 ≤ (pyStrip r.message).length := by
  unfold ContactService.create_contact at hok
  rcases hval : ContactService.validate_contact_input full_name email subject message
    with e | u
  · rw [hval, pyTry_error] at hok
    cases hok
  · obtain ⟨hb1, hb2, hb3⟩ := validate_contact_ok_bounds _ _ _ _ hval
    rw [hval, pyTry_ok] at hok
    injection hok with hok
    subst hok
    refine ⟨?_, ?_, ?_⟩
    · show 2 ≤ (pyStrip (ContactService.sanitize_text full_name)).length
      rw [sanitize_text_of_clean full_name hfn, pyStrip_idem]
      exact hb1
    · show 5 ≤ (pyStrip (ContactService.sanitize_text subject)).length
      rw [sanitize_text_of_clean subject hsu, pyStrip_idem]
      exact hb2
    · show 10 ≤ (pyStrip (ContactService.sanitize_text message)).length
      rw [sanitize_text_of_clean message hme, pyStrip_idem]
      exact hb3

/-- The record received by the repository in the concrete C4 instance. -/
def c4Fields : ContactFields :=
  { full_name := "John".toList, email := "a@b.co".toList,
    subject := "Hello friend".toList, message := "Greetings to you all".toList,
    phone_number := none, preferred_contact_method := none, ip_address := none,
    user_agent := none, organization := none, status := "new" }

/-- Concrete instance of the amended C4 theorem. -/
theorem C4_witness :
    2 ≤ (pyStrip c4Fields.full_name).length ∧
      5 ≤ (pyStrip c4Fields.subject).length ∧
      10 ≤ (pyStrip c4Fields.message).length :=
  C4_sanitized_bounds_amended "John".toList "a@b.co".toList "Hello friend".toList
    "Greetings to you all".toList none none none none none c4Fields
    (by decide) (by decide) (by decide) (by decide)

/-- Insertion step of the deterministic ordering applied by `order_by`. -/
def insertBy {α : Type} (le : α → α → Bool) (a : α) : List α → List α
  | [] => [a]
  | b :: t => if le a b then a :: b :: t else b :: insertBy le a t

/-- The ordering applied by `order_by`, as an insertion sort. -/
def sortBy {α : Type} (le : α → α → Bool) : List α → List α
  | [] => []
  | a :: t => insertBy le a (sortBy le t)

theorem insertBy_perm {α : Type} (le : α → α → Bool) (a : α) (l : List α) :
    List.Perm (insertBy le a l) (a :: l) := by
  induction l with
  | nil => exact List.Perm.refl _
  | cons b t ih =>
    unfold insertBy
    split_ifs with h
    · exact List.Perm.refl _
    · exact List.Perm.trans (List.Perm.cons b ih) (List.Perm.swap a b t)

theorem sortBy_perm {α : Type} (le : α → α → Bool) (l : List α) :
    List.Perm (sortBy le l) l := by
  induction l with
  | nil => exact List.Perm.refl _
  | cons a t ih =>
    exact List.Perm.trans (insertBy_perm le a (sortBy le t)) (List.Perm.cons a ih)

theorem mem_sortBy {α : Type} (le : α → α → Bool) (a : α) (l : List α) :
    a ∈ sortBy le l ↔ a ∈ l :=
  (sortBy_perm le l).mem_iff

/-- A project row: identity, content fields, ordering keys and the three
visibility flags of the `Project` model. -/
structure ProjectRec where
  id : Nat
  title : List Char
  description : List Char
  problem : List Char
  process : List Char
  impact : List Char
  results : List Char
  project_slug : List Char
  display_order : Int
  created_at : Nat
  is_published : Bool
  is_featured : Bool
  is_deleted : Bool
deriving DecidableEq

/-- The project table of the persistence store. -/
structure ProjectDb where
  projects : List ProjectRec
deriving DecidableEq

/-- Store well-formedness: `id` is the primary key, so ids are unique. -/
abbrev ProjectDb.Wf (db : ProjectDb) : Prop := (db.projects.map (fun r => r.id)).Nodup

/-- The comparison behind `order_by` on display order ascending then
creation time descending. -/
def projOrd (a b : ProjectRec) : Bool :=
  decide (a.display_order < b.display_order) ||
    (decide (a.display_order = b.display_order) && decide (b.created_at ≤ a.created_at))

/-- `ProjectRepository.get_by_id`. -/
def ProjectRepository.get_by_id (db : ProjectDb) (pid : Nat) : Option ProjectRec :=
  db.projects.find? (fun r => decide (r.id = pid))

/-- `ProjectRepository.get_by_slug`: no soft-deletion filter here either. -/
def ProjectRepository.get_by_slug (db : ProjectDb) (s : List Char) : Option ProjectRec :=
  db.projects.find? (fun r => decide (r.project_slug = s))

/-- `ProjectRepository.get_all`: the non-deleted rows in display order. -/
def ProjectRepository.get_all (db : ProjectDb) : List ProjectRec :=
  sortBy projOrd (db.projects.filter (fun r => !r.is_deleted))

/-- `ProjectRepository.get_published`. -/
def ProjectRepository.get_published (db : ProjectDb) : List ProjectRec :=
  sortBy projOrd (db.projects.filter (fun r => !r.is_deleted && r.is_published))

/-- `ProjectRepository.get_featured`. -/
def ProjectRepository.get_featured (db : ProjectDb) : List ProjectRec :=
  sortBy projOrd
    (db.projects.filter (fun r => !r.is_deleted && r.is_published && r.is_featured))

/-- Whether `q` occurs at the head of `hay`. -/
def seqAtHead : (q hay : List Char) → Bool
  | [], _ => true
  | _ :: _, [] => false
  | a :: q, b :: hay => decide (a = b) && seqAtHead q hay

/-- Whether `q` occurs contiguously somewhere in `hay`. -/
def seqSomewhere (q : List Char) : (hay : List Char) → Bool
  | [] => seqAtHead q []
  | b :: hay => seqAtHead q (b :: hay) || seqSomewhere q hay

/-- Case-insensitive containment, as the `icontains` lookup. -/
def icontains (hay q : List Char) : Bool :=
  seqSomewhere (q.map pyToLower) (hay.map pyToLower)

/-- `ProjectRepository.search`: substring match on title, description or
problem, restricted to non-deleted rows. -/
def ProjectRepository.search (db : ProjectDb) (q : List Char) : List ProjectRec :=
  sortBy projOrd
    (db.projects.filter (fun r =>
      !r.is_deleted &&
        (icontains r.title q || icontains r.description q || icontains r.problem q)))

/-- `ProjectRepository.get_paginated` with page at least 1 as guarded by the
service: items are the page window of the filtered, ordered rows, the total
the filtered count. -/
def ProjectRepository.get_paginated (db : ProjectDb) (page page_size : Nat)
    (published_only : Bool) : List ProjectRec × Nat :=
  let qs :=
    if published_only then
      db.projects.filter (fun r => !r.is_deleted && r.is_published)
    else
      db.projects.filter (fun r => !r.is_deleted)
  (((sortBy projOrd qs).drop ((page - 1) * page_size)).take page_size, qs.length)

/-- One keyword argument of a partial update; every constructor corresponds
to a real model attribute, so the `hasattr` guard of the source accepts each
of them (and none is the password field, which the project model lacks). -/
inductive PField
  | title (v : List Char)
  | description (v : List Char)
  | display_order (v : Int)
  | is_published (v : Bool)
  | is_featured (v : Bool)
  | is_deleted (v : Bool)
deriving DecidableEq

/-- `setattr` for one keyword argument. -/
def applyPField (r : ProjectRec) : PField → ProjectRec
  | .title v => { r with title := v }
  | .description v => { r with description := v }
  | .display_order v => { r with display_order := v }
  | .is_published v => { r with is_published := v }
  | .is_featured v => { r with is_featured := v }
  | .is_deleted v => { r with is_deleted := v }

/-- `ProjectRepository.update`: fetch by id WITHOUT any soft-deletion filter,
apply the keyword arguments, save; absent id is a normal `None` result. -/
def ProjectRepository.update (db : ProjectDb) (pid : Nat) (kwargs : List PField) :
    ProjectDb × Option ProjectRec :=
  match ProjectRepository.get_by_id db pid with
  | none => (db, none)
  | some r =>
    ({ projects := db.projects.map
        (fun x => if x.id = pid then kwargs.foldl applyPField r else x) },
      some (kwargs.foldl applyPField r))

/-- `ProjectRepository.soft_delete`: set the deletion flag, keep the row. -/
def ProjectRepository.soft_delete (db : ProjectDb) (pid : Nat) : ProjectDb × Bool :=
  match ProjectRepository.get_by_id db pid with
  | none => (db, false)
  | some r =>
    ({ projects := db.projects.map
        (fun x => if x.id = pid then { r with is_deleted := true } else x) },
      true)

/-- `ProjectRepository.hard_delete`: remove the row permanently. -/
def ProjectRepository.hard_delete (db : ProjectDb) (pid : Nat) : ProjectDb × Bool :=
  match ProjectRepository.get_by_id db pid with
  | none => (db, false)
  | some _ =>
    ({ projects := db.projects.filter (fun x => !decide (x.id = pid)) }, true)

/-- `ProjectService.update_project` delegates to the repository update. -/
def ProjectService.update_project (db : ProjectDb) (pid : Nat) (kwargs : List PField) :
    ProjectDb × Option ProjectRec :=
  ProjectRepository.update db pid kwargs

/-- `ProjectService.publish_project`. -/
def ProjectService.publish_project (db : ProjectDb) (pid : Nat) :
    ProjectDb × Option ProjectRec :=
  ProjectRepository.update db pid [.is_published true]

/-- `ProjectService.unpublish_project`. -/
def ProjectService.unpublish_project (db : ProjectDb) (pid : Nat) :
    ProjectDb × Option ProjectRec :=
  ProjectRepository.update db pid [.is_published false]

/-- `ProjectService.feature_project`. -/
def ProjectService.feature_project (db : ProjectDb) (pid : Nat) :
    ProjectDb × Option ProjectRec :=
  ProjectRepository.update db pid [.is_featured true]

/-- `ProjectService.unfeature_project`. -/
def ProjectService.unfeature_project (db : ProjectDb) (pid : Nat) :
    ProjectDb × Option ProjectRec :=
  ProjectRepository.update db pid [.is_featured false]

theorem pget_id {db : ProjectDb} {pid : Nat} {r : ProjectRec}
    (h : ProjectRepository.get_by_id db pid = some r) : r.id = pid := by
  have := List.find?_some h
  simpa using this

theorem pget_mem {db : ProjectDb} {pid : Nat} {r : ProjectRec}
    (h : ProjectRepository.get_by_id db pid = some r) : r ∈ db.projects :=
  List.mem_of_find?_eq_some h

theorem find?_map_replace {α : Type} (key : α → Nat) (pid : Nat) (r2 : α)
    (h2 : key r2 = pid) :
    ∀ (l : List α) (r : α), l.find? (fun x => decide (key x = pid)) = some r →
      (l.map (fun x => if key x = pid then r2 else x)).find?
        (fun x => decide (key x = pid)) = some r2 := by
  intro l
  induction l with
  | nil => intro r h; cases h
  | cons a t ih =>
    intro r h
    by_cases ha : key a = pid
    · simp [List.find?_cons, ha, h2]
    · have hda : decide (key a = pid) = false := by simpa using ha
      rw [List.find?_cons, hda] at h
      have h' : t.find? (fun x => decide (key x = pid)) = some r := h
      rw [List.map_cons, if_neg ha, List.find?_cons, hda]
      exact ih r h'

theorem applyPField_id (r : ProjectRec) (f : PField) : (applyPField r f).id = r.id := by
  cases f <;> rfl

theorem foldl_applyPField_id (kw : List PField) (r : ProjectRec) :
    (kw.foldl applyPField r).id = r.id := by
  induction kw generalizing r with
  | nil => rfl
  | cons f t ih => rw [List.foldl_cons, ih, applyPField_id]

theorem update_spec (db : ProjectDb) (pid : Nat) (kw : List PField) (p : ProjectRec)
    (h : ProjectRepository.get_by_id db pid = some p) :
    ProjectRepository.update db pid kw =
      ({ projects := db.projects.map
          (fun x => if x.id = pid then kw.foldl applyPField p else x) },
        some (kw.foldl applyPField p)) := by
  unfold ProjectRepository.update
  rw [h]

theorem get_by_id_update (db : ProjectDb) (pid : Nat) (kw : List PField)
    (p : ProjectRec) (h : ProjectRepository.get_by_id db pid = some p) :
    ProjectRepository.get_by_id (ProjectRepository.update db pid kw).1 pid =
      some (kw.foldl applyPField p) := by
  rw [update_spec db pid kw p h]
  exact find?_map_replace (fun x : ProjectRec => x.id) pid _
    (by show (kw.foldl applyPField p).id = pid
        rw [foldl_applyPField_id]; exact pget_id h)
    db.projects p h

theorem applyPField_idem (r : ProjectRec) (f : PField) :
    applyPField (applyPField r f) f = applyPField r f := by
  cases f <;> rfl

theorem map_replace_replace {α : Type} (key : α → Nat) (pid : Nat) (r2 r3 : α)
    (h2 : key r2 = pid) (h3 : r3 = r2) (l : List α) :
    (l.map (fun x => if key x = pid then r2 else x)).map
        (fun x => if key x = pid then r3 else x)
      = l.map (fun x => if key x = pid then r2 else x) := by
  subst h3
  rw [List.map_map]
  apply List.map_congr_left
  intro x hx
  by_cases hk : key x = pid
  · simp [hk, h2]
  · simp [hk]

theorem update_single_idem (db : ProjectDb) (pid : Nat) (f : PField) (p : ProjectRec)
    (h : ProjectRepository.get_by_id db pid = some p)
    (hidem : applyPField (applyPField p f) f = applyPField p f) :
    ProjectRepository.update (ProjectRepository.update db pid [f]).1 pid [f] =
      ProjectRepository.update db pid [f] := by
  have hid2 : (applyPField p f).id = pid := by
    rw [applyPField_id]; exact pget_id h
  have h2 := get_by_id_update db pid [f] p h
  rw [update_spec _ _ _ _ h2, update_spec _ _ _ _ h]
  simp only [List.foldl_cons, List.foldl_nil] at *
  rw [hidem]
  refine congrArg₂ Prod.mk ?_ rfl
  refine congrArg ProjectDb.mk ?_
  exact map_replace_replace (fun x : ProjectRec => x.id) pid
    (applyPField p f) (applyPField p f) hid2 rfl db.projects

/-- C8: unpublishing an existing project stores exactly the same record with
only the published flag cleared (every other field, in particular the
featured flag, is unchanged), and unpublish, publish, feature and unfeature
are each idempotent single-flag flips. -/
theorem C8_unpublish_frame_idempotent
    (db : ProjectDb) (pid : Nat) (p : ProjectRec)
    (h : ProjectRepository.get_by_id db pid = some p) :
    (ProjectService.unpublish_project db pid).2 =
        some { p with is_published := false } ∧
    ProjectRepository.get_by_id (ProjectService.unpublish_project db pid).1 pid =
        some { p with is_published := false } ∧
    ({ p with is_published := false } : ProjectRec).is_featured = p.is_featured ∧
    ProjectService.unpublish_project (ProjectService.unpublish_project db pid).1 pid =
        ProjectService.unpublish_project db pid ∧
    ProjectService.publish_project (ProjectService.publish_project db pid).1 pid =
        ProjectService.publish_project db pid ∧
    ProjectService.feature_project (ProjectService.feature_project db pid).1 pid =
        ProjectService.feature_project db pid ∧
    ProjectService.unfeature_project (ProjectService.unfeature_project db pid).1 pid =
        ProjectService.unfeature_project db pid := by
  unfold ProjectService.unpublish_project ProjectService.publish_project
    ProjectService.feature_project ProjectService.unfeature_project
  refine ⟨?_, ?_, rfl, ?_, ?_, ?_, ?_⟩
  · rw [update_spec _ _ _ _ h]
    rfl
  · have := get_by_id_update db pid [.is_published false] p h
    simpa using this
  · exact update_single_idem db pid _ p h (applyPField_idem p _)
  · exact update_single_idem db pid _ p h (applyPField_idem p _)
  · exact update_single_idem db pid _ p h (applyPField_idem p _)
  · exact update_single_idem db pid _ p h (applyPField_idem p _)

/-- A soft-deleted, published, featured project used in concrete instances. -/
def pGhost : ProjectRec :=
  { id := 3, title := "Ghost".toList, description := "A hidden project".toList,
    problem := "Needs ten chars".toList, process := "Also ten chars".toList,
    impact := "Impactful work".toList, results := "Shipped".toList,
    project_slug := "ghost".toList, display_order := 1, created_at := 10,
    is_published := true, is_featured := true, is_deleted := true }

/-- A live published project used in concrete instances. -/
def pLive : ProjectRec :=
  { id := 4, title := "Live".toList, description := "A visible project".toList,
    problem := "Needs ten chars".toList, process := "Also ten chars".toList,
    impact := "Impactful work".toList, results := "Shipped".toList,
    project_slug := "live".toList, display_order := 2, created_at := 20,
    is_published := true, is_featured := false, is_deleted := false }

/-- A two-project store with one soft-deleted and one live project. -/
def dbProjects : ProjectDb := { projects := [pGhost, pLive] }

/-- Concrete instance of C8 on the live project. -/
theorem C8_witness :
    (ProjectService.unpublish_project dbProjects 4).2 =
        some { pLive with is_published := false } ∧
    ProjectRepository.get_by_id (ProjectService.unpublish_project dbProjects 4).1 4 =
        some { pLive with is_published := false } ∧
    ({ pLive with is_published := false } : ProjectRec).is_featured = pLive.is_featured ∧
    ProjectService.unpublish_project (ProjectService.unpublish_project dbProjects 4).1 4 =
        ProjectService.unpublish_project dbProjects 4 ∧
    ProjectService.publish_project (ProjectService.publish_project dbProjects 4).1 4 =
        ProjectService.publish_project dbProjects 4 ∧
    ProjectService.feature_project (ProjectService.feature_project dbProjects 4).1 4 =
        ProjectService.feature_project dbProjects 4 ∧
    ProjectService.unfeature_project (ProjectService.unfeature_project dbProjects 4).1 4 =
        ProjectService.unfeature_project dbProjects 4 :=
  C8_unpublish_frame_idempotent dbProjects 4 pLive (by decide)

theorem pget_by_id_of_mem (db : ProjectDb) (hwf : db.Wf) {r : ProjectRec}
    (hr : r ∈ db.projects) : ProjectRepository.get_by_id db r.id = some r :=
  find?_key_unique (fun x : ProjectRec => x.id) db.projects hwf r hr

theorem r2_mem_update (db : ProjectDb) (pid : Nat) (kw : List PField)
    (p : ProjectRec) (h : ProjectRepository.get_by_id db pid = some p) :
    (kw.foldl applyPField p) ∈ (ProjectRepository.update db pid kw).1.projects := by
  rw [update_spec _ _ _ _ h]
  have hp := pget_mem h
  have hmapped := List.mem_map_of_mem
    (fun x : ProjectRec => if x.id = pid then kw.foldl applyPField p else x) hp
  simpa [pget_id h] using hmapped

theorem mem_get_all_iff (db : ProjectDb) (r : ProjectRec) :
    r ∈ ProjectRepository.get_all db ↔ r ∈ db.projects ∧ r.is_deleted = false := by
  unfold ProjectRepository.get_all
  rw [mem_sortBy, List.mem_filter]
  simp

theorem mem_get_published_iff (db : ProjectDb) (r : ProjectRec) :
    r ∈ ProjectRepository.get_published db ↔
      r ∈ db.projects ∧ r.is_deleted = false ∧ r.is_published = true := by
  unfold ProjectRepository.get_published
  rw [mem_sortBy, List.mem_filter]
  simp

theorem mem_get_featured_iff (db : ProjectDb) (r : ProjectRec) :
    r ∈ ProjectRepository.get_featured db ↔
      r ∈ db.projects ∧ r.is_deleted = false ∧ r.is_published = true ∧
        r.is_featured = true := by
  unfold ProjectRepository.get_featured
  rw [mem_sortBy, List.mem_filter]
  simp [and_assoc]

theorem mem_search_not_deleted (db : ProjectDb) (q : List Char) (r : ProjectRec)
    (h : r ∈ ProjectRepository.search db q) : r.is_deleted = false := by
  unfold ProjectRepository.search at h
  rw [mem_sortBy, List.mem_filter] at h
  have := h.2
  simp at this
  exact this.1

theorem mem_paginated_not_deleted (db : ProjectDb) (page size : Nat) (po : Bool)
    (r : ProjectRec) (h : r ∈ (ProjectRepository.get_paginated db page size po).1) :
    r.is_deleted = false := by
  unfold ProjectRepository.get_paginated at h
  have hs := List.drop_subset _ _ (List.take_subset _ _ h)
  rw [mem_sortBy] at hs
  cases po with
  | true =>
    rw [if_pos rfl] at hs
    rw [List.mem_filter] at hs
    have := hs.2
    simp at this
    exact this.1
  | false =>
    have hneq : ¬(false = true) := by simp
    rw [if_neg hneq] at hs
    rw [List.mem_filter] at hs
    have := hs.2
    simpa using this

/-- C5: a soft-deleted project of a well-formed store is excluded from the
full, published and featured listings, from search and from every page of the
paginated listing, yet a direct id lookup still returns it; after a hard
delete the id lookup returns the absent result and no stored row carries the
id any more. -/
theorem C5_soft_delete_visibility
    (db : ProjectDb) (hwf : db.Wf) (p : ProjectRec)
    (hmem : p ∈ db.projects) (hdel : p.is_deleted = true) :
    p ∉ ProjectRepository.get_all db ∧
    p ∉ ProjectRepository.get_published db ∧
    p ∉ ProjectRepository.get_featured db ∧
    (∀ q, p ∉ ProjectRepository.search db q) ∧
    (∀ page size po, p ∉ (ProjectRepository.get_paginated db page size po).1) ∧
    ProjectRepository.get_by_id db p.id = some p ∧
    (ProjectRepository.hard_delete db p.id).2 = true ∧
    ProjectRepository.get_by_id (ProjectRepository.hard_delete db p.id).1 p.id
      = none := by
  have hgb : ProjectRepository.get_by_id db p.id = some p :=
    pget_by_id_of_mem db hwf hmem
  refine ⟨?_, ?_, ?_, ?_, ?_, hgb, ?_, ?_⟩
  · intro hc
    rw [mem_get_all_iff] at hc
    rw [hc.2] at hdel
    cases hdel
  · intro hc
    rw [mem_get_published_iff] at hc
    rw [hc.2.1] at hdel
    cases hdel
  · intro hc
    rw [mem_get_featured_iff] at hc
    rw [hc.2.1] at hdel
    cases hdel
  · intro q hc
    rw [mem_search_not_deleted db q p hc] at hdel
    cases hdel
  · intro page size po hc
    rw [mem_paginated_not_deleted db page size po p hc] at hdel
    cases hdel
  · unfold ProjectRepository.hard_delete
    rw [hgb]
  · unfold ProjectRepository.hard_delete
    rw [hgb]
    apply List.find?_eq_none.mpr
    intro x hx
    rw [List.mem_filter] at hx
    have := hx.2
    simpa using this

/-- Concrete instance of C5 on the two-project store. -/
theorem C5_witness :
    pGhost ∉ ProjectRepository.get_all dbProjects ∧
    pGhost ∉ ProjectRepository.get_published dbProjects ∧
    pGhost ∉ ProjectRepository.get_featured dbProjects ∧
    (∀ q, pGhost ∉ ProjectRepository.search dbProjects q) ∧
    (∀ page size po, pGhost ∉ (ProjectRepository.get_paginated dbProjects page size po).1) ∧
    ProjectRepository.get_by_id dbProjects pGhost.id = some pGhost ∧
    (ProjectRepository.hard_delete dbProjects pGhost.id).2 = true ∧
    ProjectRepository.get_by_id (ProjectRepository.hard_delete dbProjects pGhost.id).1
        pGhost.id = none :=
  C5_soft_delete_visibility dbProjects (by decide) pGhost (by decide) (by decide)

/-- C10: the by-id mutations do apply to a soft-deleted project - update,
publish, feature and unpublish all return the updated record rather than the
absent result, because the repository update fetches by id with no deletion
filter; and an update carrying a cleared deletion flag un-deletes the project,
which then reappears in the standard listings its flags qualify it for. -/
theorem C10_update_applies_to_soft_deleted
    (db : ProjectDb) (pid : Nat) (p : ProjectRec)
    (h : ProjectRepository.get_by_id db pid = some p)
    (_hdel : p.is_deleted = true) :
    (ProjectService.update_project db pid [.is_deleted false]).2 =
        some { p with is_deleted := false } ∧
    (ProjectService.publish_project db pid).2 = some { p with is_published := true } ∧
    (ProjectService.feature_project db pid).2 = some { p with is_featured := true } ∧
    (ProjectService.unpublish_project db pid).2 = some { p with is_published := false } ∧
    ({ p with is_deleted := false } : ProjectRec) ∈
      ProjectRepository.get_all (ProjectService.update_project db pid [.is_deleted false]).1 ∧
    (p.is_published = true →
      ({ p with is_deleted := false } : ProjectRec) ∈
        ProjectRepository.get_published
          (ProjectService.update_project db pid [.is_deleted false]).1) ∧
    (p.is_published = true → p.is_featured = true →
      ({ p with is_deleted := false } : ProjectRec) ∈
        ProjectRepository.get_featured
          (ProjectService.update_project db pid [.is_deleted false]).1) := by
  unfold ProjectService.update_project ProjectService.publish_project
    ProjectService.feature_project ProjectService.unpublish_project
  have hm := r2_mem_update db pid [.is_deleted false] p h
  refine ⟨?_, ?_, ?_, ?_, ?_, ?_, ?_⟩
  · rw [update_spec _ _ _ _ h]
    rfl
  · rw [update_spec _ _ _ _ h]
    rfl
  · rw [update_spec _ _ _ _ h]
    rfl
  · rw [update_spec _ _ _ _ h]
    rfl
  · rw [mem_get_all_iff]
    exact ⟨hm, rfl⟩
  · intro hpub
    rw [mem_get_published_iff]
    exact ⟨hm, rfl, hpub⟩
  · intro hpub hfeat
    rw [mem_get_featured_iff]
    exact ⟨hm, rfl, hpub, hfeat⟩

/-- Concrete instance of C10 on the soft-deleted ghost project. -/
theorem C10_witness :
    (ProjectService.update_project dbProjects 3 [.is_deleted false]).2 =
        some { pGhost with is_deleted := false } ∧
    (ProjectService.publish_project dbProjects 3).2 =
        some { pGhost with is_published := true } ∧
    (ProjectService.feature_project dbProjects 3).2 =
        some { pGhost with is_featured := true } ∧
    (ProjectService.unpublish_project dbProjects 3).2 =
        some { pGhost with is_published := false } ∧
    ({ pGhost with is_deleted := false } : ProjectRec) ∈
      ProjectRepository.get_all
        (ProjectService.update_project dbProjects 3 [.is_deleted false]).1 ∧
    (pGhost.is_published = true →
      ({ pGhost with is_deleted := false } : ProjectRec) ∈
        ProjectRepository.get_published
          (ProjectService.update_project dbProjects 3 [.is_deleted false]).1) ∧
    (pGhost.is_published = true → pGhost.is_featured = true →
      ({ pGhost with is_deleted := false } : ProjectRec) ∈
        ProjectRepository.get_featured
          (ProjectService.update_project dbProjects 3 [.is_deleted false]).1) :=
  C10_update_applies_to_soft_deleted dbProjects 3 pGhost (by decide) (by decide)

/-- The ordering applied to user listings: most recent first. -/
def userOrd (a b : UserRec) : Bool := decide (b.date_joined ≤ a.date_joined)

/-- The pagination envelope returned by `UserRepository.get_paginated`. -/
structure PaginatedUsers where
  items : List UserRec
  total : Nat
  page : Nat
  page_size : Nat
  total_pages : Nat
deriving DecidableEq

/-- `UserRepository.get_paginated` with page at least 1 as guarded by the
service: the item window is rows `(page-1)*size` to `page*size` of the
ordered table. -/
def UserRepository.get_paginated (db : UserDb) (page page_size : Nat) :
    PaginatedUsers :=
  { items := ((sortBy userOrd db.users).drop ((page - 1) * page_size)).take page_size,
    total := db.users.length,
    page := page, page_size := page_size,
    total_pages := (db.users.length + page_size - 1) / page_size }

/-- C6: over a fixed well-formed store, page 1 and page 2 of size 10 are
disjoint and their in-order concatenation is exactly page 1 of size 20. -/
theorem C6_pagination_windows (db : UserDb) (hwf : db.Wf) :
    ((UserRepository.get_paginated db 1 10).items ++
        (UserRepository.get_paginated db 2 10).items =
      (UserRepository.get_paginated db 1 20).items) ∧
    ∀ x ∈ (UserRepository.get_paginated db 1 10).items,
      x ∉ (UserRepository.get_paginated db 2 10).items := by
  unfold UserRepository.get_paginated
  simp only
  rw [List.drop_zero]
  have hconcat :
      (sortBy userOrd db.users).take 10 ++
          ((sortBy userOrd db.users).drop 10).take 10 =
        (sortBy userOrd db.users).take 20 :=
    (List.take_add (sortBy userOrd db.users) 10 10).symm
  refine ⟨hconcat, ?_⟩
  have hnodupdb : db.users.Nodup := List.Nodup.of_map _ hwf
  have hnodup : (sortBy userOrd db.users).Nodup :=
    ((sortBy_perm userOrd db.users).nodup_iff).mpr hnodupdb
  have hsplit := List.take_append_drop 10 (sortBy userOrd db.users)
  rw [← hsplit] at hnodup
  have hdisj := (List.nodup_append.mp hnodup).2.2
  intro x hx1 hx2
  exact hdisj hx1 (List.take_subset _ _ hx2)

/-- A three-account store used in concrete instances. -/
def dbThree : UserDb :=
  { users := [uAlice, uBob,
      { id := 9, username := "carol".toList, email := "carol@ex.com".toList,
        first_name := [], last_name := [], pwStored := "Password3".toList,
        is_active := true, is_staff := true, is_superuser := false,
        date_joined := 300 }] }

/-- Concrete instance of C6 on the three-account store. -/
theorem C6_witness :
    ((UserRepository.get_paginated dbThree 1 10).items ++
        (UserRepository.get_paginated dbThree 2 10).items =
      (UserRepository.get_paginated dbThree 1 20).items) ∧
    ∀ x ∈ (UserRepository.get_paginated dbThree 1 10).items,
      x ∉ (UserRepository.get_paginated dbThree 2 10).items :=
  C6_pagination_windows dbThree (by decide)

/-- The standardized response envelope of the view layer. -/
structure ApiResponse where
  message : String
  dataFields : List (String × String)
  status_code : Nat
  http_status : Nat
deriving DecidableEq

/-- `standardized_response` of the view modules. -/
def standardized_response (message : String) (dataFields : List (String × String))
    (status_code http_status : Nat) : ApiResponse :=
  { message := message, dataFields := dataFields,
    status_code := status_code, http_status := http_status }

/-- The exception translation of the `register_user` view (after the request
body passed serializer validation): success returns 201, a `ValueError` is
returned as a 400 carrying its message, and any other exception is logged and
returned as a 500 whose standardized data carries the text of the exception
(the `str(e)` interpolation of the source). -/
def register_user (hf : List Char → List Char) (dbPre dbCreate : UserDb)
    (newId dateNow : Nat)
    (username email password first_name last_name : List Char) : ApiResponse :=
  match UserService.create_user hf dbPre dbCreate newId dateNow username email
      password first_name last_name true false false with
  | .ok (_, user) =>
      standardized_response "User registered successfully"
        [("username", String.mk user.username)] 201 201
  | .error (.valueError m) =>
      standardized_response "Registration failed" [("error", m)] 400 400
  | .error (.integrityError m) =>
      standardized_response "An error occurred while creating the user"
        [("error", m)] 500 500

/-- C9 fails on the code: on an unexpected storage fault the boundary does
answer 500 with a generic top-level message, but the data object of the body
carries the text of the underlying exception - here the unique-constraint
message - so the body is not limited to the fixed generic message. -/
theorem C9_counterexample :
    register_user (fun pw => pw) { users := [] } dbAliceOnly 7 5 "alice".toList
        "alice@ex.com".toList "Password1".toList [] [] =
      { message := "An error occurred while creating the user",
        dataFields := [("error", "UNIQUE constraint failed")],
        status_code := 500, http_status := 500 } := by decide

/-- C9 amended: on an unexpected internal fault the boundary responds 500 and
the top-level message is a fixed generic string, but the data object includes
the fault's own message text under the error key. -/
theorem C9_internal_fault_response_amended
    (hf : List Char → List Char) (dbPre dbCreate : UserDb) (newId dateNow : Nat)
    (username email password first_name last_name : List Char) (m : String)
    (hfault : UserService.create_user hf dbPre dbCreate newId dateNow username
        email password first_name last_name true false false
      = .error (.integrityError m)) :
    register_user hf dbPre dbCreate newId dateNow username email password
        first_name last_name =
      standardized_response "An error occurred while creating the user"
        [("error", m)] 500 500 := by
  unfold register_user
  rw [hfault]

/-- Concrete instance of the amended C9 theorem on the raced stores. -/
theorem C9_witness :
    register_user (fun pw => pw) { users := [] } dbAliceOnly 7 5 "alice".toList
        "alice@ex.com".toList "Password1".toList [] [] =
      standardized_response "An error occurred while creating the user"
        [("error", "UNIQUE constraint failed")] 500 500 :=
  C9_internal_fault_response_amended (fun pw => pw) { users := [] } dbAliceOnly
    7 5 "alice".toList "alice@ex.com".toList "Password1".toList [] []
    "UNIQUE constraint failed" (by decide)

end Portfolio
